import Mathlib

/-!
Shallow embedding of the library catalog program (src/book.py and
src/library_app.py): the Book record, the genre lookup table, the canonical
display string, and the LibraryApp catalog operations (load, save, search,
borrow, return, add, remove, find), followed by theorems settling the
specification claims.

Conventions of the embedding:
  * Python strings are Lean `String`s; Python `int` is Lean `Int`.
  * The persisted CSV file is modelled at the row level as a
    `List (List String)` (the csv module encodes and decodes rows of string
    fields losslessly); a missing file is `none`.
  * An operation that raises an exception is modelled as returning `none`.
  * Interactive `input()` values become explicit parameters.
-/

/-- One catalog entry: mirrors the `Book` class of src/book.py. -/
structure Book where
  isbn : String
  title : String
  author : String
  genre : Int
  available : Bool
  deriving DecidableEq, Repr

/-- The fixed genre table `Book.GENRE_NAMES` of src/book.py, as an ordered
association list.  Entry 5 uses the right single quotation mark U+2019,
exactly as in the source. -/
def GENRE_NAMES : List (Int × String) :=
  [(0, "Romance"),
   (1, "Mystery"),
   (2, "Science Fiction"),
   (3, "Thriller"),
   (4, "Young Adult"),
   (5, "Children’s Fiction"),
   (6, "Self-help"),
   (7, "Fantasy"),
   (8, "Historical Fiction"),
   (9, "Poetry")]

/-- `Book.get_genre_name`: `GENRE_NAMES.get(genre)`, `none` when the code is
not a key of the table. -/
def getGenreName (b : Book) : Option String :=
  GENRE_NAMES.lookup b.genre

/-- `Book.get_availability`: the display string for the availability flag. -/
def getAvailability (b : Book) : String :=
  if b.available then "Available" else "Borrowed"

/-- Python left-justification `f"{s:<w}"` / `str.ljust`: pad with spaces on
the right up to width `w`; a longer string is left untouched. -/
def ljust (s : String) (w : Nat) : String :=
  s ++ String.mk (List.replicate (w - s.length) ' ')

/-- `Book.__str__`: the canonical single-line display.  The isbn is written
verbatim (the f-string gives it no width); title, author and genre name are
left-justified to 30, 25 and 20 columns.  When the genre code is not in the
table, `get_genre_name()` is `None` and formatting it raises, hence `none`. -/
def bookStr (b : Book) : Option String :=
  (getGenreName b).map fun g =>
    b.isbn ++ " " ++ ljust b.title 30 ++ " " ++ ljust b.author 25 ++ " " ++
      ljust g 20 ++ " " ++ getAvailability b

/-- Modelled from the spec (§4.1 "Canonical display"), for comparison with
`bookStr`: id padded to 14 characters, then title (30), owner (25), category
name (20), availability string, single spaces between columns. -/
def specDisplay (b : Book) : Option String :=
  (getGenreName b).map fun g =>
    ljust b.isbn 14 ++ " " ++ ljust b.title 30 ++ " " ++ ljust b.author 25 ++ " " ++
      ljust g 20 ++ " " ++ getAvailability b

/-- The character for a single decimal digit `d < 10`. -/
def digitChar (d : Nat) : Char :=
  Char.ofNat (48 + d)

/-- Decimal digit characters of `n`, most significant first (empty for 0). -/
def natChars (n : Nat) : List Char :=
  ((Nat.digits 10 n).map digitChar).reverse

/-- Python `str` on a nonnegative integer. -/
def natStr (n : Nat) : String :=
  if n = 0 then "0" else String.mk (natChars n)

/-- Python `str` on an `int` (what `csv.writer` writes for the genre code). -/
def intStr (i : Int) : String :=
  if i < 0 then String.mk ('-' :: natChars i.natAbs) else natStr i.toNat

/-- Accumulating decimal parse of a digit string; `none` on a non-digit. -/
def digitsVal : List Char → Nat → Option Nat
  | [], acc => some acc
  | c :: rest, acc =>
      if c.isDigit then digitsVal rest (acc * 10 + (c.toNat - 48)) else none

/-- Python `int(s)`: optional sign followed by a nonempty digit string;
`none` models the `ValueError` raised otherwise. -/
def pyInt (s : String) : Option Int :=
  match s.data with
  | [] => none
  | c :: rest =>
      if c = '-' then
        if rest.isEmpty then none else (digitsVal rest 0).map fun n => -(n : Int)
      else if c = '+' then
        if rest.isEmpty then none else (digitsVal rest 0).map fun n => (n : Int)
      else (digitsVal (c :: rest) 0).map fun n => (n : Int)

/-- One loop iteration of `LibraryApp.load_books`: unpack a CSV row into
five fields (a `ValueError` — `none` — otherwise), convert the genre with
`int(...)`, and compare the availability field with the literal `"True"`. -/
def parseRow (row : List String) : Option Book :=
  match row with
  | [isbn, title, author, genreStr, availStr] =>
      (pyInt genreStr).map fun g => Book.mk isbn title author g (availStr == "True")
  | _ => none

/-- The row loop of `LibraryApp.load_books`: parse every row in order; the
first failing row raises (`none`). -/
def parseRows : List (List String) → Option (List Book)
  | [] => some []
  | r :: rest =>
      match parseRow r with
      | none => none
      | some b => (parseRows rest).map fun bs => b :: bs

/-- `LibraryApp.load_books`: `none` for the file means `FileNotFoundError`,
answered with `-1` and an untouched list; otherwise every row is parsed and
appended and `len(self.book_list)` — the length of the resulting whole
list — is returned; a row that fails to parse raises (outer `none`). -/
def loadBooks (books : List Book) (file : Option (List (List String))) :
    Option (Int × List Book) :=
  match file with
  | none => some (-1, books)
  | some rows =>
      (parseRows rows).map fun newBooks =>
        (((books ++ newBooks).length : Int), books ++ newBooks)

/-- The row `LibraryApp.save_books` writes for one book. -/
def saveRow (b : Book) : List String :=
  [b.isbn, b.title, b.author, intStr b.genre, if b.available then "True" else "False"]

/-- `LibraryApp.save_books`: serialize every book in order. -/
def saveBooks (books : List Book) : List (List String) :=
  books.map saveRow

/-- The scan of `LibraryApp.find_book_by_isbn` from position `i`. -/
def findFrom (isbn : String) : List Book → Nat → Int
  | [], _ => -1
  | b :: rest, i => if b.isbn = isbn then (i : Int) else findFrom isbn rest (i + 1)

/-- `LibraryApp.find_book_by_isbn`: index of the first book with this isbn,
`-1` if none. -/
def findBookByIsbn (books : List Book) (isbn : String) : Int :=
  findFrom isbn books 0

/-- Outcome of a borrow or return operation, with the title the success or
invalid-state message reports. -/
inductive OpResult where
  | notFound
  | invalidState (title : String)
  | success (title : String)
  deriving DecidableEq, Repr

/-- `LibraryApp.borrow_book` with the prompted isbn as a parameter: not
found when the scan yields `-1`; invalid state (book kept as is) when the
found book is unavailable; otherwise `borrow_it` flips the flag. -/
def borrowBook (books : List Book) (isbn : String) : OpResult × List Book :=
  let index := findBookByIsbn books isbn
  if index = -1 then (OpResult.notFound, books)
  else
    match books[index.toNat]? with
    | none => (OpResult.notFound, books)
    | some b =>
        if b.available = false then (OpResult.invalidState b.title, books)
        else (OpResult.success b.title,
          books.set index.toNat (Book.mk b.isbn b.title b.author b.genre false))

/-- `LibraryApp.return_book`, symmetric to `borrowBook`. -/
def returnBook (books : List Book) (isbn : String) : OpResult × List Book :=
  let index := findBookByIsbn books isbn
  if index = -1 then (OpResult.notFound, books)
  else
    match books[index.toNat]? with
    | none => (OpResult.notFound, books)
    | some b =>
        if b.available = true then (OpResult.invalidState b.title, books)
        else (OpResult.success b.title,
          books.set index.toNat (Book.mk b.isbn b.title b.author b.genre true))

/-- Outcome of `LibraryApp.remove_book`: the removed book is returned for
the confirmation message. -/
inductive RemoveResult where
  | notFound
  | removed (b : Book)
  deriving DecidableEq, Repr

/-- `LibraryApp.remove_book` with the prompted isbn as a parameter:
`list.pop(index)` at the index of the first match. -/
def removeBook (books : List Book) (isbn : String) : RemoveResult × List Book :=
  let index := findBookByIsbn books isbn
  if index = -1 then (RemoveResult.notFound, books)
  else
    match books[index.toNat]? with
    | none => (RemoveResult.notFound, books)
    | some b => (RemoveResult.removed b, books.eraseIdx index.toNat)

/-- The genre code `LibraryApp.add_book` resolves a valid genre name to:
the first key of `GENRE_NAMES` whose value equals the name. -/
def genreCode (genreName : String) : Option Int :=
  (GENRE_NAMES.find? fun p => p.2 = genreName).map Prod.fst

/-- `LibraryApp.add_book` with the prompted fields as parameters: `none`
models the reprompt loop on an invalid genre name (no catalog change);
otherwise a new available book is appended, with no duplicate-id check. -/
def addBook (books : List Book) (isbn title author genreName : String) :
    Option (List Book) :=
  (genreCode genreName).map fun g => books ++ [Book.mk isbn title author g true]

/-- Python `str.lower()`: lowercase character by character. -/
def strLower (s : String) : String :=
  String.mk (s.data.map Char.toLower)

/-- Python substring test `sub in s` on character lists. -/
def occursIn (sub : List Char) : List Char → Bool
  | [] => sub.isEmpty
  | c :: rest => sub.isPrefixOf (c :: rest) || occursIn sub rest

/-- Python `sub in s` on strings. -/
def strIn (sub s : String) : Bool :=
  occursIn sub.data s.data

/-- The loop of `LibraryApp.search_books` over the remaining books, with the
already-lowercased query `qv`.  The four membership tests short-circuit as
Python `or` does, so `get_genre_name().lower()` — which raises (`none`) when
the genre name is `None` — is only reached when isbn, title and author all
fail to match. -/
def searchAux (qv : String) : List Book → Option (List Book)
  | [] => some []
  | b :: rest =>
      if strIn qv (strLower b.isbn) || strIn qv (strLower b.title) || strIn qv (strLower b.author) then
        (searchAux qv rest).map fun r => b :: r
      else
        match getGenreName b with
        | none => none
        | some g =>
            if strIn qv (strLower g) then (searchAux qv rest).map fun r => b :: r
            else searchAux qv rest

/-- `LibraryApp.search_books` with the prompted query as a parameter,
returning the list handed to `print_books`. -/
def searchBooks (books : List Book) (q : String) : Option (List Book) :=
  searchAux (strLower q) books

/-- The per-book match criterion of the search: the lowercased query occurs
in the lowercased isbn, title, author, or genre display name. -/
def matchesQuery (q : String) (b : Book) : Bool :=
  strIn (strLower q) (strLower b.isbn) || strIn (strLower q) (strLower b.title) ||
    strIn (strLower q) (strLower b.author) ||
    ((getGenreName b).map fun g => strIn (strLower q) (strLower g)).getD false

/-! ### Helper lemmas -/

/-- Appending the empty character list changes nothing. -/
theorem str_append_mk_nil (s : String) : s ++ String.mk [] = s :=
  String.ext (by simp [String.data_append])

/-- A decimal digit character is a digit, decodes back to its value, and is
neither sign character. -/
theorem digitChar_spec (d : Nat) (h : d < 10) :
    (digitChar d).isDigit = true ∧ (digitChar d).toNat - 48 = d ∧
      digitChar d ≠ '-' ∧ digitChar d ≠ '+' := by
  interval_cases d <;> exact ⟨by decide, by decide, by decide, by decide⟩

/-- `digitsVal` over the characters of a digit list accumulates the decimal
value. -/
theorem digitsVal_map (L : List Nat) (h : ∀ d ∈ L, d < 10) (acc : Nat) :
    digitsVal (L.map digitChar) acc = some (L.foldl (fun a d => a * 10 + d) acc) := by
  induction L generalizing acc with
  | nil => rfl
  | cons d L ih =>
      obtain ⟨h1, h2, -, -⟩ := digitChar_spec d (h d (List.mem_cons_self ..))
      rw [List.map_cons, digitsVal, if_pos h1, h2,
        ih (fun x hx => h x (List.mem_cons_of_mem _ hx)), List.foldl_cons]

/-- The big-endian decimal fold agrees with `Nat.ofDigits` of the reversed
(little-endian) digit list. -/
theorem foldl_base10 (L : List Nat) (acc : Nat) :
    L.foldl (fun a d => a * 10 + d) acc = acc * 10 ^ L.length + Nat.ofDigits 10 L.reverse := by
  induction L generalizing acc with
  | nil => simp [Nat.ofDigits]
  | cons d L ih =>
      rw [List.foldl_cons, ih, List.reverse_cons, Nat.ofDigits_append,
        Nat.ofDigits_singleton, List.length_reverse, List.length_cons]
      ring

/-- Parsing the decimal characters of `n` yields `n`. -/
theorem digitsVal_natChars (n : Nat) : digitsVal (natChars n) 0 = some n := by
  have h : ∀ d ∈ (Nat.digits 10 n).reverse, d < 10 := fun d hd =>
    Nat.digits_lt_base (by norm_num) (List.mem_reverse.mp hd)
  have e : natChars n = ((Nat.digits 10 n).reverse).map digitChar := by
    rw [natChars, List.map_reverse]
  rw [e, digitsVal_map _ h, foldl_base10]
  simp [Nat.ofDigits_digits]

/-- Every character produced by `natChars` is a decimal digit character. -/
theorem natChars_digits (n : Nat) :
    ∀ c ∈ natChars n, ∃ d, d < 10 ∧ c = digitChar d := by
  intro c hc
  rw [natChars, List.mem_reverse, List.mem_map] at hc
  obtain ⟨d, hd, rfl⟩ := hc
  exact ⟨d, Nat.digits_lt_base (by norm_num) hd, rfl⟩

/-- Evaluation of `pyInt` on an explicit nonempty character list. -/
theorem pyInt_mk_cons (c : Char) (cs : List Char) :
    pyInt (String.mk (c :: cs)) =
      if c = '-' then
        if cs.isEmpty then none else (digitsVal cs 0).map fun n => -(n : Int)
      else if c = '+' then
        if cs.isEmpty then none else (digitsVal cs 0).map fun n => (n : Int)
      else (digitsVal (c :: cs) 0).map fun n => (n : Int) := rfl

/-- Python `int` inverts Python `str` on naturals. -/
theorem pyInt_natStr (n : Nat) : pyInt (natStr n) = some (n : Int) := by
  by_cases h0 : n = 0
  · subst h0; decide
  · have e : natChars n = ((Nat.digits 10 n).reverse).map digitChar := by
      rw [natChars, List.map_reverse]
    rcases hL : (Nat.digits 10 n).reverse with _ | ⟨d, L⟩
    · exact absurd (by simpa using congrArg List.reverse hL)
        (Nat.digits_ne_nil_iff_ne_zero.mpr h0)
    · have hmem : d ∈ Nat.digits 10 n := by
        rw [← List.mem_reverse, hL]
        exact List.mem_cons_self ..
      have hd : d < 10 := Nat.digits_lt_base (by norm_num) hmem
      obtain ⟨-, -, hm, hp⟩ := digitChar_spec d hd
      have hval : digitsVal (digitChar d :: L.map digitChar) 0 = some n := by
        have hv := digitsVal_natChars n
        rwa [e, hL, List.map_cons] at hv
      have hs : natStr n = String.mk (digitChar d :: L.map digitChar) := by
        rw [natStr, if_neg h0, e, hL, List.map_cons]
      rw [hs, pyInt_mk_cons, if_neg hm, if_neg hp, hval]
      rfl

/-- Python `int` inverts Python `str` on every integer: the genre code
round-trips through its CSV text. -/
theorem pyInt_intStr (i : Int) : pyInt (intStr i) = some i := by
  by_cases hneg : i < 0
  · have hn : i.natAbs ≠ 0 := by omega
    have hnil : Nat.digits 10 i.natAbs ≠ [] := Nat.digits_ne_nil_iff_ne_zero.mpr hn
    have hne : (natChars i.natAbs).isEmpty = false := by
      rcases hc : natChars i.natAbs with _ | ⟨c, cs⟩
      · rw [natChars, List.reverse_eq_nil_iff, List.map_eq_nil_iff] at hc
        exact absurd hc hnil
      · rfl
    rw [intStr, if_pos hneg, pyInt_mk_cons, if_pos rfl, if_neg (by rw [hne]; simp),
      digitsVal_natChars]
    show some (-(i.natAbs : Int)) = some i
    congr 1
    omega
  · rw [intStr, if_neg hneg, pyInt_natStr]
    congr 1
    omega

/-- Parsing the row written for a book reproduces the book. -/
theorem parseRow_saveRow (b : Book) : parseRow (saveRow b) = some b := by
  obtain ⟨i, t, a, g, av⟩ := b
  cases av <;> simp [parseRow, saveRow, pyInt_intStr]

/-- Parsing every saved row reproduces the whole list. -/
theorem parseRows_saveBooks (books : List Book) :
    parseRows (saveBooks books) = some books := by
  induction books with
  | nil => rfl
  | cons b bs ih =>
      rw [saveBooks, List.map_cons, parseRows, parseRow_saveRow]
      rw [saveBooks] at ih
      rw [ih]
      rfl

/-- The scan finds nothing in a list with no matching isbn. -/
theorem findFrom_eq_neg_one (isbn : String) (l : List Book)
    (h : ∀ b ∈ l, b.isbn ≠ isbn) (i : Nat) : findFrom isbn l i = -1 := by
  induction l generalizing i with
  | nil => rfl
  | cons b rest ih =>
      rw [findFrom, if_neg (h b (List.mem_cons_self ..))]
      exact ih (fun x hx => h x (List.mem_cons_of_mem _ hx)) _

/-- The scan started at `i` stops at the first match, `i + l1.length`. -/
theorem findFrom_append (isbn : String) (l1 : List Book) (m : Book) (l2 : List Book)
    (h1 : ∀ b ∈ l1, b.isbn ≠ isbn) (hm : m.isbn = isbn) (i : Nat) :
    findFrom isbn (l1 ++ m :: l2) i = ((i + l1.length : Nat) : Int) := by
  induction l1 generalizing i with
  | nil => simp [findFrom, hm]
  | cons b rest ih =>
      rw [List.cons_append, findFrom, if_neg (h1 b (List.mem_cons_self ..)),
        ih (fun x hx => h1 x (List.mem_cons_of_mem _ hx))]
      congr 1
      simp [List.length_cons]
      omega

/-- `find_book_by_isbn` yields `-1` exactly on a catalog with no match. -/
theorem findBookByIsbn_eq_neg_one (books : List Book) (isbn : String)
    (h : ∀ b ∈ books, b.isbn ≠ isbn) : findBookByIsbn books isbn = -1 :=
  findFrom_eq_neg_one isbn books h 0

/-- `find_book_by_isbn` yields the index of the first match. -/
theorem findBookByIsbn_append (l1 : List Book) (m : Book) (l2 : List Book) (isbn : String)
    (h1 : ∀ b ∈ l1, b.isbn ≠ isbn) (hm : m.isbn = isbn) :
    findBookByIsbn (l1 ++ m :: l2) isbn = (l1.length : Int) := by
  rw [findBookByIsbn, findFrom_append isbn l1 m l2 h1 hm 0]
  simp

/-- Setting the element at the split point replaces it. -/
theorem set_append_length {α : Type} (l1 : List α) (m m' : α) (l2 : List α) :
    (l1 ++ m :: l2).set l1.length m' = l1 ++ m' :: l2 := by
  induction l1 with
  | nil => rfl
  | cons a l ih => simp [List.set, ih]

/-- Erasing the element at the split point removes it. -/
theorem eraseIdx_append_length {α : Type} (l1 : List α) (m : α) (l2 : List α) :
    (l1 ++ m :: l2).eraseIdx l1.length = l1 ++ l2 := by
  induction l1 with
  | nil => rfl
  | cons a l ih => simp [List.eraseIdx, ih]

/-- Indexing at the split point yields the middle element. -/
theorem getElem?_append_cons {α : Type} (l1 : List α) (m : α) (l2 : List α) :
    (l1 ++ m :: l2)[l1.length]? = some m := by
  rw [List.getElem?_append_right (le_refl _)]
  simp

/-- `borrow_book` on a catalog with no matching isbn. -/
theorem borrowBook_notFound (books : List Book) (isbn : String)
    (h : ∀ b ∈ books, b.isbn ≠ isbn) :
    borrowBook books isbn = (OpResult.notFound, books) := by
  rw [borrowBook]
  simp [findBookByIsbn_eq_neg_one books isbn h]

/-- `return_book` on a catalog with no matching isbn. -/
theorem returnBook_notFound (books : List Book) (isbn : String)
    (h : ∀ b ∈ books, b.isbn ≠ isbn) :
    returnBook books isbn = (OpResult.notFound, books) := by
  rw [returnBook]
  simp [findBookByIsbn_eq_neg_one books isbn h]

/-- `remove_book` on a catalog with no matching isbn. -/
theorem removeBook_notFound (books : List Book) (isbn : String)
    (h : ∀ b ∈ books, b.isbn ≠ isbn) :
    removeBook books isbn = (RemoveResult.notFound, books) := by
  rw [removeBook]
  simp [findBookByIsbn_eq_neg_one books isbn h]

/-- `borrow_book` at the first match: guarded state transition. -/
theorem borrowBook_append (l1 : List Book) (m : Book) (l2 : List Book) (isbn : String)
    (h1 : ∀ b ∈ l1, b.isbn ≠ isbn) (hm : m.isbn = isbn) :
    borrowBook (l1 ++ m :: l2) isbn =
      if m.available then
        (OpResult.success m.title, l1 ++ Book.mk m.isbn m.title m.author m.genre false :: l2)
      else (OpResult.invalidState m.title, l1 ++ m :: l2) := by
  have hf := findBookByIsbn_append l1 m l2 isbn h1 hm
  have hne : ¬((l1.length : Int) = -1) := by omega
  have ht : ((l1.length : Int)).toNat = l1.length := by omega
  rw [borrowBook]
  simp only [hf, hne, if_false, ht, getElem?_append_cons]
  cases hav : m.available <;>
    simp [set_append_length]

/-- `return_book` at the first match: guarded state transition. -/
theorem returnBook_append (l1 : List Book) (m : Book) (l2 : List Book) (isbn : String)
    (h1 : ∀ b ∈ l1, b.isbn ≠ isbn) (hm : m.isbn = isbn) :
    returnBook (l1 ++ m :: l2) isbn =
      if m.available then (OpResult.invalidState m.title, l1 ++ m :: l2)
      else
        (OpResult.success m.title, l1 ++ Book.mk m.isbn m.title m.author m.genre true :: l2) := by
  have hf := findBookByIsbn_append l1 m l2 isbn h1 hm
  have hne : ¬((l1.length : Int) = -1) := by omega
  have ht : ((l1.length : Int)).toNat = l1.length := by omega
  rw [returnBook]
  simp only [hf, hne, if_false, ht, getElem?_append_cons]
  cases hav : m.available <;>
    simp [set_append_length]

/-- `remove_book` at the first match: pop and return the popped book. -/
theorem removeBook_append (l1 : List Book) (m : Book) (l2 : List Book) (isbn : String)
    (h1 : ∀ b ∈ l1, b.isbn ≠ isbn) (hm : m.isbn = isbn) :
    removeBook (l1 ++ m :: l2) isbn = (RemoveResult.removed m, l1 ++ l2) := by
  have hf := findBookByIsbn_append l1 m l2 isbn h1 hm
  have hne : ¬((l1.length : Int) = -1) := by omega
  have ht : ((l1.length : Int)).toNat = l1.length := by omega
  rw [removeBook]
  simp only [hf, hne, if_false, ht, getElem?_append_cons, eraseIdx_append_length]

/-- An association list with no matching key looks up to `none`. -/
theorem lookup_eq_none_of_no_key {α β : Type} [BEq α] [LawfulBEq α]
    (l : List (α × β)) (a : α) (h : ∀ p ∈ l, p.1 ≠ a) : l.lookup a = none := by
  induction l with
  | nil => rfl
  | cons p rest ih =>
      obtain ⟨k, v⟩ := p
      have hk : (a == k) = false :=
        beq_eq_false_iff_ne.mpr (Ne.symm (h (k, v) (List.mem_cons_self ..)))
      rw [List.lookup, hk]
      exact ih fun x hx => h x (List.mem_cons_of_mem _ hx)

/-- A string of at least the target width is not padded. -/
theorem ljust_of_le (s : String) (w : Nat) (h : w ≤ s.length) : ljust s w = s := by
  rw [ljust, Nat.sub_eq_zero_of_le h, List.replicate_zero, str_append_mk_nil]

/-- When every book has a genre display name, the search loop is the filter
by the four-field match criterion. -/
theorem searchAux_filter (qv : String) (books : List Book)
    (h : ∀ b ∈ books, (getGenreName b).isSome = true) :
    searchAux qv books = some (books.filter fun b =>
      strIn qv (strLower b.isbn) || strIn qv (strLower b.title) ||
        strIn qv (strLower b.author) ||
        ((getGenreName b).map fun g => strIn qv (strLower g)).getD false) := by
  induction books with
  | nil => rfl
  | cons b rest ih =>
      have ihh := ih fun x hx => h x (List.mem_cons_of_mem _ hx)
      obtain ⟨g, hg⟩ := Option.isSome_iff_exists.mp (h b (List.mem_cons_self ..))
      rcases h3 : strIn qv (strLower b.isbn) || strIn qv (strLower b.title) ||
          strIn qv (strLower b.author) with _ | _
      · rcases h4 : strIn qv (strLower g) with _ | _ <;>
          simp_all [searchAux, List.filter_cons]
      · simp_all [searchAux, List.filter_cons]

/-! ### Claim theorems -/

/-- C1: saving any catalog and loading the saved rows into an empty catalog
yields the same records in the same order with identical isbn, title,
author, genre and availability values, and reports their count: the
delimited row serialization (genre as integer text, availability as
"True"/"False") is lossless for these fields. -/
theorem save_load_roundtrip (books : List Book) :
    loadBooks [] (some (saveBooks books)) = some ((books.length : Int), books) := by
  rw [loadBooks, parseRows_saveBooks]
  simp

/-- C2: at the Catalog level, borrow yields not-found when no record has
the isbn and return does too; on the record found by the scan (the first
match), borrow yields the invalid-state outcome with the catalog untouched
when it is already borrowed, and otherwise flips exactly that record's
availability to false and reports success with its title; return is
symmetric (invalid state when already available, otherwise flips to
true). -/
theorem borrow_return_guarded (books l1 l2 : List Book) (m : Book) (isbn : String) :
    ((∀ b ∈ books, b.isbn ≠ isbn) →
        borrowBook books isbn = (OpResult.notFound, books) ∧
        returnBook books isbn = (OpResult.notFound, books))
  ∧ (books = l1 ++ m :: l2 → (∀ b ∈ l1, b.isbn ≠ isbn) → m.isbn = isbn →
        (m.available = false →
          borrowBook books isbn = (OpResult.invalidState m.title, books))
      ∧ (m.available = true →
          borrowBook books isbn = (OpResult.success m.title,
            l1 ++ Book.mk m.isbn m.title m.author m.genre false :: l2))
      ∧ (m.available = true →
          returnBook books isbn = (OpResult.invalidState m.title, books))
      ∧ (m.available = false →
          returnBook books isbn = (OpResult.success m.title,
            l1 ++ Book.mk m.isbn m.title m.author m.genre true :: l2))) := by
  constructor
  · intro h
    exact ⟨borrowBook_notFound books isbn h, returnBook_notFound books isbn h⟩
  · rintro rfl h1 hm
    refine ⟨?_, ?_, ?_, ?_⟩ <;> intro hav <;>
      simp [borrowBook_append l1 m l2 isbn h1 hm,
        returnBook_append l1 m l2 isbn h1 hm, hav]

/-- Witness for C2 at a concrete catalog. -/
theorem borrow_return_guarded_witness :
    borrowBook [Book.mk "978-0441172719" "Dune" "Frank Herbert" 2 true] "978-0441172719" =
      (OpResult.success "Dune",
        [Book.mk "978-0441172719" "Dune" "Frank Herbert" 2 false]) := by
  have h := (borrow_return_guarded
      [Book.mk "978-0441172719" "Dune" "Frank Herbert" 2 true] [] []
      (Book.mk "978-0441172719" "Dune" "Frank Herbert" 2 true) "978-0441172719").2
      rfl (by simp) rfl
  simpa using h.2.1 rfl

/-- C3: for every catalog in which every record's genre code has a display
name, and every query, search returns exactly the records whose lowercased
isbn, title, author or genre display name contains the lowercased query
(logical OR over the four fields), in catalog order; a query matching no
record returns the empty list. -/
theorem search_books_filter (books : List Book) (q : String)
    (h : ∀ b ∈ books, (getGenreName b).isSome = true) :
    searchBooks books q = some (books.filter (matchesQuery q))
  ∧ ((∀ b ∈ books, matchesQuery q b = false) → searchBooks books q = some []) := by
  have main : searchBooks books q = some (books.filter (matchesQuery q)) :=
    searchAux_filter (strLower q) books h
  refine ⟨main, fun hnone => ?_⟩
  rw [main, List.filter_eq_nil_iff.mpr fun b hb => by simp [hnone b hb]]

/-- Witness for C3 at a concrete catalog and query. -/
theorem search_books_filter_witness :
    searchBooks [Book.mk "978-0441172719" "Dune" "Frank Herbert" 2 true] "FRANK" =
      some [Book.mk "978-0441172719" "Dune" "Frank Herbert" 2 true] := by
  rw [(search_books_filter [Book.mk "978-0441172719" "Dune" "Frank Herbert" 2 true]
    "FRANK" (by decide)).1]
  decide

/-- C4 (code bug): with one record already in the catalog, loading a file
holding one well-formed row returns 2 — `len(self.book_list)`, the total
size of the catalog after the append — although a single record was loaded
by the call; the docstring ("the number of books loaded") and the spec
promise 1.  The second conjunct shows the not-found signal: a missing path
returns -1 and leaves the catalog unchanged. -/
theorem load_returns_total_not_count :
    loadBooks [Book.mk "978-0441172719" "Dune" "Frank Herbert" 2 true]
        (some [["978-0375822742", "The City of Ember", "Jeanne DuPrau", "4", "True"]]) =
      some (2, [Book.mk "978-0441172719" "Dune" "Frank Herbert" 2 true,
                Book.mk "978-0375822742" "The City of Ember" "Jeanne DuPrau" 4 true])
  ∧ loadBooks [Book.mk "978-0441172719" "Dune" "Frank Herbert" 2 true] none =
      some (-1, [Book.mk "978-0441172719" "Dune" "Frank Herbert" 2 true]) :=
  ⟨by decide, by decide⟩

/-- C5: remove yields not-found and keeps the catalog identical when no
record has the isbn; otherwise it removes the first matching record,
returns exactly that record, the length drops by one and all other records
keep their order; and find on the empty catalog is not-found for every
isbn. -/
theorem remove_semantics (books l1 l2 : List Book) (m : Book) (isbn : String) :
    ((∀ b ∈ books, b.isbn ≠ isbn) →
        removeBook books isbn = (RemoveResult.notFound, books))
  ∧ (books = l1 ++ m :: l2 → (∀ b ∈ l1, b.isbn ≠ isbn) → m.isbn = isbn →
        removeBook books isbn = (RemoveResult.removed m, l1 ++ l2)
        ∧ (l1 ++ l2).length + 1 = books.length)
  ∧ (∀ s : String, findBookByIsbn [] s = -1) := by
  refine ⟨fun h => removeBook_notFound books isbn h, ?_, fun s => rfl⟩
  rintro rfl h1 hm
  refine ⟨removeBook_append l1 m l2 isbn h1 hm, ?_⟩
  simp [List.length_append]
  omega

/-- Witness for C5 at a concrete catalog. -/
theorem remove_semantics_witness :
    removeBook [Book.mk "978-0441172719" "Dune" "Frank Herbert" 2 true] "978-0441172719" =
      (RemoveResult.removed (Book.mk "978-0441172719" "Dune" "Frank Herbert" 2 true), []) := by
  have h := ((remove_semantics
      [Book.mk "978-0441172719" "Dune" "Frank Herbert" 2 true] [] []
      (Book.mk "978-0441172719" "Dune" "Frank Herbert" 2 true) "978-0441172719").2.1
      rfl (by simp) rfl).1
  simpa using h

/-- C6 counterexample: the table entry for code 5 is not the ASCII-apostrophe
string "Children's Fiction" the claim names — the source spells it with the
right single quotation mark U+2019. -/
theorem genre_name_apostrophe_counterexample :
    GENRE_NAMES.lookup 5 ≠ some "Children\x27s Fiction" := by decide

/-- C6 amended: the fixed table maps codes 0 through 9, in that order, to
Romance, Mystery, Science Fiction, Thriller, Young Adult,
Children’s Fiction (spelled with U+2019), Self-help, Fantasy, Historical
Fiction, Poetry; and for every record whose code lies in 0–9 the derived
display name is the table entry for that code. -/
theorem genre_table_mapping :
    GENRE_NAMES.map Prod.fst = [0, 1, 2, 3, 4, 5, 6, 7, 8, 9]
  ∧ GENRE_NAMES.map Prod.snd =
      ["Romance", "Mystery", "Science Fiction", "Thriller", "Young Adult",
       "Children’s Fiction", "Self-help", "Fantasy", "Historical Fiction", "Poetry"]
  ∧ ∀ b : Book, 0 ≤ b.genre → b.genre ≤ 9 →
      getGenreName b = (GENRE_NAMES.map Prod.snd)[b.genre.toNat]? := by
  refine ⟨by decide, by decide, ?_⟩
  intro b h0 h9
  have h : b.genre = 0 ∨ b.genre = 1 ∨ b.genre = 2 ∨ b.genre = 3 ∨ b.genre = 4 ∨
      b.genre = 5 ∨ b.genre = 6 ∨ b.genre = 7 ∨ b.genre = 8 ∨ b.genre = 9 := by omega
  rcases h with h | h | h | h | h | h | h | h | h | h <;>
    simp only [getGenreName, h] <;> decide

/-- Witness for C6 at the concrete code 5. -/
theorem genre_table_mapping_witness :
    getGenreName (Book.mk "i" "t" "a" 5 true) =
      (GENRE_NAMES.map Prod.snd)[(5 : Int).toNat]? :=
  genre_table_mapping.2.2 (Book.mk "i" "t" "a" 5 true) (by decide) (by decide)

/-- C7 counterexample: for a record with a 1-character id the display is not
the claimed fixed-width line with the id padded to 14 characters — the
f-string writes the isbn verbatim with no width. -/
theorem display_pad_counterexample :
    bookStr (Book.mk "x" "T" "A" 0 true) ≠ specDisplay (Book.mk "x" "T" "A" 0 true) := by
  decide

/-- C7 amended: for every record with an in-table category code the display
line is isbn written verbatim, a space, title left-justified to 30, a
space, author to 25, a space, genre name to 20, a space, and the
availability string; whenever the isbn has at least 14 characters (as the
documented 3-digits-hyphen-10-digits format does) this coincides with the
claimed fixed-width format with id padded to 14. -/
theorem book_display_format (b : Book) (g : String) (hg : getGenreName b = some g) :
    bookStr b = some (b.isbn ++ " " ++ ljust b.title 30 ++ " " ++ ljust b.author 25 ++
      " " ++ ljust g 20 ++ " " ++ getAvailability b)
  ∧ (14 ≤ b.isbn.length → bookStr b = specDisplay b) := by
  refine ⟨by rw [bookStr, hg]; rfl, fun hlen => ?_⟩
  rw [bookStr, specDisplay, hg, ljust_of_le b.isbn 14 hlen]

/-- Witness for C7 at a concrete record with a 14-character isbn. -/
theorem book_display_format_witness :
    bookStr (Book.mk "978-0441172719" "Dune" "Frank Herbert" 2 true) =
      specDisplay (Book.mk "978-0441172719" "Dune" "Frank Herbert" 2 true) :=
  (book_display_format (Book.mk "978-0441172719" "Dune" "Frank Herbert" 2 true)
    "Science Fiction" (by decide)).2 (by decide)

/-- C8: the scan returns the index of the first record with the isbn, so on
a catalog with duplicates borrow and return flip only the earliest
duplicate's flag and remove pops only the earliest duplicate, leaving every
later duplicate untouched; and add appends without any duplicate-id
check. -/
theorem find_first_duplicates (l1 l2 : List Book) (m : Book) (isbn : String)
    (h1 : ∀ b ∈ l1, b.isbn ≠ isbn) (hm : m.isbn = isbn) :
    findBookByIsbn (l1 ++ m :: l2) isbn = (l1.length : Int)
  ∧ (m.available = true →
      borrowBook (l1 ++ m :: l2) isbn = (OpResult.success m.title,
        l1 ++ Book.mk m.isbn m.title m.author m.genre false :: l2))
  ∧ (m.available = false →
      returnBook (l1 ++ m :: l2) isbn = (OpResult.success m.title,
        l1 ++ Book.mk m.isbn m.title m.author m.genre true :: l2))
  ∧ removeBook (l1 ++ m :: l2) isbn = (RemoveResult.removed m, l1 ++ l2)
  ∧ ∀ (books : List Book) (t a gn : String) (g : Int), genreCode gn = some g →
      addBook books isbn t a gn = some (books ++ [Book.mk isbn t a g true]) := by
  refine ⟨findBookByIsbn_append l1 m l2 isbn h1 hm, fun hav => ?_, fun hav => ?_,
    removeBook_append l1 m l2 isbn h1 hm, fun books t a gn g hcode => ?_⟩
  · simp [borrowBook_append l1 m l2 isbn h1 hm, hav]
  · simp [returnBook_append l1 m l2 isbn h1 hm, hav]
  · rw [addBook, hcode]
    rfl

/-- Witness for C8 at a concrete two-record catalog sharing an isbn: only
the first duplicate is borrowed. -/
theorem find_first_duplicates_witness :
    borrowBook [Book.mk "111-1111111111" "First" "A" 2 true,
        Book.mk "111-1111111111" "Second" "B" 3 true] "111-1111111111" =
      (OpResult.success "First",
        [Book.mk "111-1111111111" "First" "A" 2 false,
         Book.mk "111-1111111111" "Second" "B" 3 true]) := by
  have h := (find_first_duplicates [] [Book.mk "111-1111111111" "Second" "B" 3 true]
      (Book.mk "111-1111111111" "First" "A" 2 true) "111-1111111111"
      (by simp) rfl).2.1 rfl
  simpa using h

/-- C9: a well-formed row (five fields, integer genre text) always loads,
whatever text the fifth field holds: the availability field is compared
with the exact literal "True", so any other text — "true", "TRUE",
garbage — is coerced to a not-available record, not reported as a read
error. -/
theorem availability_literal_compare (isbn title author gs a : String) (g : Int)
    (hg : pyInt gs = some g) :
    parseRow [isbn, title, author, gs, a] =
      some (Book.mk isbn title author g (a == "True"))
  ∧ (a ≠ "True" →
      parseRow [isbn, title, author, gs, a] = some (Book.mk isbn title author g false))
  ∧ loadBooks [] (some [[isbn, title, author, gs, a]]) =
      some (1, [Book.mk isbn title author g (a == "True")]) := by
  have h1 : parseRow [isbn, title, author, gs, a] =
      some (Book.mk isbn title author g (a == "True")) := by
    rw [parseRow, hg]
    rfl
  refine ⟨h1, fun hne => ?_, ?_⟩
  · rw [h1, beq_eq_false_iff_ne.mpr hne]
  · rw [loadBooks, parseRows, h1, parseRows]
    rfl

/-- Witness for C9: the lowercase text "true" is coerced to not-available. -/
theorem availability_literal_compare_witness :
    parseRow ["978-0441172719", "Dune", "Frank Herbert", "2", "true"] =
      some (Book.mk "978-0441172719" "Dune" "Frank Herbert" 2 false) :=
  (availability_literal_compare "978-0441172719" "Dune" "Frank Herbert" "2" "true"
    2 (by decide)).2.1 (by decide)

/-- C10 counterexample: a catalog containing a record whose genre code (10)
is not in the table does not always make search fail — when the record
matches on an earlier field (here the query "a" occurs in the isbn), the
short-circuit `or` never evaluates the genre name and the record is
returned as output. -/
theorem search_bad_genre_counterexample :
    getGenreName (Book.mk "abc" "t" "a" 10 true) = none ∧
    searchBooks [Book.mk "abc" "t" "a" 10 true] "a" =
      some [Book.mk "abc" "t" "a" 10 true] :=
  ⟨by decide, by decide⟩

/-- C10 amended: for a record whose genre code is not a key of the table the
derived display name is `None` (absent, not an error and not the empty
string), and the canonical display fails on it; search fails exactly on
catalogs where such a record is reached with isbn, title and author all
failing to match — if every such record matches an earlier field, search
still produces output. -/
theorem bad_genre_outcomes (b : Book) (hb : ∀ p ∈ GENRE_NAMES, p.1 ≠ b.genre) :
    getGenreName b = none
  ∧ bookStr b = none
  ∧ ∀ (l1 l2 : List Book) (q : String),
      strIn (strLower q) (strLower b.isbn) = false →
      strIn (strLower q) (strLower b.title) = false →
      strIn (strLower q) (strLower b.author) = false →
      searchBooks (l1 ++ b :: l2) q = none := by
  have hg : getGenreName b = none := lookup_eq_none_of_no_key GENRE_NAMES b.genre hb
  refine ⟨hg, by rw [bookStr, hg]; rfl, ?_⟩
  intro l1 l2 q h1 h2 h3
  rw [searchBooks]
  induction l1 with
  | nil => simp [searchAux, h1, h2, h3, hg]
  | cons a rest ih =>
      rw [List.cons_append, searchAux]
      rcases hta : strIn (strLower q) (strLower a.isbn) ||
          strIn (strLower q) (strLower a.title) ||
          strIn (strLower q) (strLower a.author) with _ | _
      · cases hga : getGenreName a with
        | none => simp
        | some g =>
            rcases hsg : strIn (strLower q) (strLower g) with _ | _ <;> simp [ih]
      · simp [ih]

/-- Witness for C10 at a concrete catalog: the bad-genre record matches on
no earlier field, so search raises. -/
theorem bad_genre_outcomes_witness :
    searchBooks [Book.mk "abc" "ttt" "aaa" 10 true] "zz" = none := by
  have h := (bad_genre_outcomes (Book.mk "abc" "ttt" "aaa" 10 true)
      (by decide)).2.2 [] [] "zz" (by decide) (by decide) (by decide)
  simpa using h
